import Mathlib

/-!
Verification of the execution output and interrupt bridge implemented in
`src/packages/pyodide-runtime-agent/src/ipython-setup.py`.

The Python module is shallowly embedded: Python runtime values become the
inductive type `PyVal`; the side effects of each bridge entry point (sink
invocations, stdout/stderr lines) become explicit fields of a result record;
external collaborators (IPython's rich formatter, `traceback.format_exception`,
matplotlib's rendering pipeline, `time.sleep`) are passed in as outcome
parameters, since their code is not part of this repository.  Every definition
is executable, so concrete runs can be settled by `rfl` or `decide`.
-/

namespace IPythonSetup

/-- Model of a Python runtime value as it flows through the bridge.
Scalars (`None`, `bool`, `int`, `str`) are JSON-encodable; `list` and `dict`
are the container shapes `json.dumps` understands; `obj` stands for any other
Python object: it carries the string `repr`/`str` rendering of the object and,
when the object exposes a `to_dict` attribute, the value that calling
`to_dict()` returns.  Cyclic or otherwise unencodable values are represented
by `obj`, since `json.dumps` rejects them the same way (`TypeError` or
`ValueError`), which is all the bridge code observes. -/
inductive PyVal where
  | none
  | bool (b : Bool)
  | int (n : Int)
  | str (s : String)
  | list (elems : List PyVal)
  | dict (entries : List (PyVal × PyVal))
  | obj (toDict : Option PyVal) (reprStr : String)

/-- Keys accepted by `json.dumps` for a mapping: `str`, `int`, `bool`, `None`
(floats as well; the model has no float constructor). Any other key type makes
`json.dumps` raise `TypeError`. -/
def jsonKeyOK : PyVal → Bool
  | PyVal.none | PyVal.bool _ | PyVal.int _ | PyVal.str _ => true
  | _ => false

mutual

/-- Success predicate of the probe `json.dumps(value)`: true exactly when the
standard JSON encoder can encode the value without raising. -/
def jsonOK : PyVal → Bool
  | PyVal.none => true
  | PyVal.bool _ => true
  | PyVal.int _ => true
  | PyVal.str _ => true
  | PyVal.list xs => jsonOKList xs
  | PyVal.dict es => jsonOKEntries es
  | PyVal.obj _ _ => false

/-- Every element of the list is JSON-encodable. -/
def jsonOKList : List PyVal → Bool
  | [] => true
  | x :: xs => jsonOK x && jsonOKList xs

/-- Every entry of the mapping has an admissible key and an encodable value. -/
def jsonOKEntries : List (PyVal × PyVal) → Bool
  | [] => true
  | (k, v) :: es => (jsonKeyOK k && jsonOK v) && jsonOKEntries es

end

mutual

/-- Model of Python `repr`.  For `obj` it is the stored rendering; container
renderings follow Python's bracketed forms.  This models the external builtin:
no theorem below depends on the exact text of a container rendering. -/
def pyRepr : PyVal → String
  | PyVal.none => "None"
  | PyVal.bool b => cond b "True" "False"
  | PyVal.int n => toString n
  | PyVal.str s => "\x27" ++ s ++ "\x27"
  | PyVal.list xs => "[" ++ pyReprList xs ++ "]"
  | PyVal.dict es => "\x7b" ++ pyReprEntries es ++ "\x7d"
  | PyVal.obj _ r => r

/-- Comma-separated reprs of list elements. -/
def pyReprList : List PyVal → String
  | [] => ""
  | [x] => pyRepr x
  | x :: y :: xs => pyRepr x ++ ", " ++ pyReprList (y :: xs)

/-- Comma-separated `key: value` reprs of dict entries. -/
def pyReprEntries : List (PyVal × PyVal) → String
  | [] => ""
  | [(k, v)] => pyRepr k ++ ": " ++ pyRepr v
  | (k, v) :: e :: es => pyRepr k ++ ": " ++ pyRepr v ++ ", " ++ pyReprEntries (e :: es)

end

/-- Model of Python `str()`: identity on strings, `repr` otherwise. -/
def pyStr : PyVal → String
  | PyVal.str s => s
  | v => pyRepr v

/-- Python dict assignment `result[k] = v` on a string-keyed dict represented
as an insertion-ordered association list: an existing key keeps its position
and has its value overwritten; a new key is appended. -/
def dictInsert (m : List (String × PyVal)) (k : String) (v : PyVal) :
    List (String × PyVal) :=
  if m.any (fun p => p.1 == k) then
    m.map (fun p => if p.1 == k then (k, v) else p)
  else m ++ [(k, v)]

/-- The dict branch shared by both `_make_serializable` methods
(`ipython-setup.py` lines 100-115 and 169-184): iterate the entries in order;
for each entry probe `json.dumps(value)`; on success store the value unchanged
under `str(key)`, on failure store `str(value)` instead (the code also prints
a `[SERIALIZATION_WARNING]` line, a diagnostic that does not affect the
returned mapping). -/
def serializeDict (entries : List (PyVal × PyVal)) : List (String × PyVal) :=
  entries.foldl
    (fun result p =>
      dictInsert result (pyStr p.1)
        (if jsonOK p.2 then p.2 else PyVal.str (pyStr p.2)))
    []

/-- Reassemble a string-keyed association list as a Python dict value. -/
def strKeyed (m : List (String × PyVal)) : PyVal :=
  PyVal.dict (m.map fun p => (PyVal.str p.1, p.2))

/-- The entry `(str(key), probed value)` that the dict branch stores for one
input entry: the coerced key together with the value kept on probe success and
replaced by `str(value)` on probe failure. -/
def serEntry (p : PyVal × PyVal) : String × PyVal :=
  (pyStr p.1, if jsonOK p.2 then p.2 else PyVal.str (pyStr p.2))

/-- Python probe `hasattr(obj, "to_dict")`, returning the value `obj.to_dict()`
produces when the attribute is present.  Among modelled values only custom
objects carry the attribute (dicts, lists and scalars do not). -/
def toDictAttr : PyVal → Option PyVal
  | PyVal.obj (some d) _ => some d
  | _ => Option.none

/-- RichDisplayPublisher._make_serializable (`ipython-setup.py` lines 92-122):
`None` becomes an empty dict; a value with a `to_dict` attribute is answered
by `to_dict()`'s result directly; a dict goes through the per-entry probe; any
other value is probed whole and replaced by `str(obj)` on failure.  The Lean
function being total models the Python function returning (it contains no
raise; exceptions from `to_dict()` itself would propagate, which the theorems
below account for). -/
def publisher_make_serializable (obj : PyVal) : PyVal :=
  match obj with
  | PyVal.none => PyVal.dict []
  | v =>
    match toDictAttr v with
    | some d => d
    | Option.none =>
      match v with
      | PyVal.dict entries => strKeyed (serializeDict entries)
      | w => if jsonOK w then w else PyVal.str (pyStr w)

/-- RichDisplayHook._make_serializable (`ipython-setup.py` lines 164-191):
identical to the publisher's version except that it has no `to_dict` branch,
so a custom object falls through to the whole-value probe. -/
def hook_make_serializable : PyVal → PyVal
  | PyVal.none => PyVal.dict []
  | PyVal.dict entries => strKeyed (serializeDict entries)
  | v => if jsonOK v then v else PyVal.str (pyStr v)

/-- Python `str()` of a bool, as interpolated by an f-string. -/
def pyBoolStr (b : Bool) : String := cond b "True" "False"

/-- Observable effects of one `clear_output` call. -/
structure ClearOutcome where
  sinkCalls : List Bool
  stdoutLines : List String

/-- RichDisplayPublisher.clear_output (`ipython-setup.py` lines 84-90):
when a clear callback is present and truthy, call it once with `wait`;
otherwise print the sentinel line `__CLEAR_OUTPUT__:<wait>` to stdout. -/
def clear_output (hasClearSink : Bool) (wait : Bool) : ClearOutcome :=
  if hasClearSink then
    { sinkCalls := [wait], stdoutLines := [] }
  else
    { sinkCalls := [], stdoutLines := ["__CLEAR_OUTPUT__:" ++ pyBoolStr wait] }

/-- Outcome of the external call `self.compute_format_data(result)` (IPython's
rich-formatting protocol, not part of this repository): either a
`(format_dict, md_dict)` pair, where `md_dict` may be `None`, or an exception. -/
inductive FormatOutcome where
  | ok (formatDict : List (PyVal × PyVal)) (mdDict : Option (List (PyVal × PyVal)))
  | raises (msg : String)

/-- Observable outcome of one RichDisplayHook.__call__ invocation: the new
execution counter, the `js_callback(execution_count, data, metadata)`
invocations it performed, the stderr diagnostics, and the returned value.
The hook passes the result through unchanged. -/
structure HookResult where
  execution_count : Nat
  sinkCalls : List (Nat × PyVal × PyVal)
  stderrLines : List String
  returned : Option PyVal

/-- RichDisplayHook.__call__ (`ipython-setup.py` lines 133-162): `None`
results are ignored; otherwise the counter is incremented, the result is
expanded by the host formatter, and on success the serialized pair is sent to
the sink (only when a sink is set and the format dict is non-empty, mirroring
`if self.js_callback and format_dict:`).  If the formatter raises, the
exception is caught, a `[DISPLAY_HOOK_ERROR]` diagnostic goes to stderr and
the sink receives the degraded plain-text payload.  Totality of this function
models the Python `except Exception` swallowing the formatting failure. -/
def hookCall (hasSink : Bool) (count : Nat) (result : Option PyVal)
    (fmt : FormatOutcome) : HookResult :=
  match result with
  | Option.none =>
      { execution_count := count, sinkCalls := [], stderrLines := [],
        returned := Option.none }
  | some v =>
    match fmt with
    | FormatOutcome.ok fd md =>
        if hasSink && !fd.isEmpty then
          { execution_count := count + 1,
            sinkCalls := [(count + 1,
              hook_make_serializable (PyVal.dict fd),
              hook_make_serializable (PyVal.dict (md.getD [])))],
            stderrLines := [],
            returned := some v }
        else
          { execution_count := count + 1, sinkCalls := [], stderrLines := [],
            returned := some v }
    | FormatOutcome.raises msg =>
        if hasSink then
          { execution_count := count + 1,
            sinkCalls := [(count + 1,
              PyVal.dict [(PyVal.str "text/plain", PyVal.str (pyStr v))],
              PyVal.dict [])],
            stderrLines :=
              ["[DISPLAY_HOOK_ERROR] ErrorWarning: Error formatting result: " ++ msg],
            returned := some v }
        else
          { execution_count := count + 1,
            sinkCalls := [],
            stderrLines :=
              ["[DISPLAY_HOOK_ERROR] ErrorWarning: Error formatting result: " ++ msg],
            returned := some v }

/-- Outcome of the external call
`"".join(traceback.format_exception(exc_type, exc_value, exc_traceback))`
(Python standard library, not part of this repository): the joined text, or an
exception escaping the call. -/
inductive TbOutcome where
  | formatted (text : String)
  | raises (msg : String)

/-- The `exc_type` argument as the fallback path observes it: either `None`
(which has no `__name__` attribute) or an exception class with its `__name__`. -/
inductive ExcTypeArg where
  | noneType
  | excClass (name : String)

/-- Python attribute access `exc_type.__name__`: succeeds on a class, raises
`AttributeError` on `None`. -/
def excTypeName : ExcTypeArg → Option String
  | ExcTypeArg.noneType => Option.none
  | ExcTypeArg.excClass n => some n

/-- format_exception (`ipython-setup.py` lines 269-282).  The primary path
returns the joined standard traceback rendering; if that raises, the fallback
prints a `[FORMATTER_ERROR]` diagnostic (not modelled; it does not affect the
return value) and returns `f"{exc_type.__name__}: {exc_value}"`.  An
`Option.none` result models the call itself raising: that happens exactly when
the primary path raises and `exc_type.__name__` raises in the fallback
f-string, since nothing catches the second failure. -/
def format_exception (tb : TbOutcome) (excType : ExcTypeArg)
    (excValueStr : String) : Option String :=
  match tb with
  | TbOutcome.formatted text => some text
  | TbOutcome.raises _ =>
    match excTypeName excType with
    | some n => some (n ++ ": " ++ excValueStr)
    | Option.none => Option.none

/-- Observable steps of one wrapped `plt.show` call. -/
inductive CaptureEvent where
  | publishSVG (svg : String)
  | clearFigure
  | stdout (line : String)
  | callOriginalShow (blockArg : Option Bool)

/-- The body of the `try` block in _capture_matplotlib_show: render the
current figure to an SVG string (`fig.savefig` plus `getvalue`, an external
matplotlib pipeline passed in as `render`), hand the markup to the display
system (`display(SVG(...))`, passed in as `publish`), then clear the figure.
An `Except.error` models an exception escaping the block at that step. -/
def captureBody (render : Except String String)
    (publish : String → Except String Unit) : Except String (List CaptureEvent) :=
  match render with
  | Except.error e => Except.error e
  | Except.ok svg =>
    match publish svg with
    | Except.error e => Except.error e
    | Except.ok _ => Except.ok [CaptureEvent.publishSVG svg, CaptureEvent.clearFigure]

/-- _capture_matplotlib_show (`ipython-setup.py` lines 206-232): when figures
are open, run the capture body; any exception it raises is caught and reported
as an `Error capturing plot:` line on stdout.  Afterwards the original
`plt.show` is always invoked, with `block=block` when the caller passed a
block argument and with no argument otherwise.  Totality of this function
models the wrapper returning normally instead of propagating a rendering or
publishing exception. -/
def capture_matplotlib_show (hasFigures : Bool) (render : Except String String)
    (publish : String → Except String Unit) (block : Option Bool) :
    List CaptureEvent :=
  (if hasFigures then
    match captureBody render publish with
    | Except.ok events => events
    | Except.error e => [CaptureEvent.stdout ("Error capturing plot: " ++ e)]
  else []) ++ [CaptureEvent.callOriginalShow block]

/-- Observable steps of one wrapped `time.sleep` call, absent an interrupt:
`check` is a completed `check_interrupt()` poll (a no-op when no interrupt is
pending), `sleep q` is a completed `_original_sleep(q)` of `q` seconds. -/
inductive SleepEvent where
  | check
  | sleep (amount : ℚ)

/-- The 50 ms chunk (`chunk_size = 0.05`) used by interrupt_aware_sleep.
Durations are modelled as exact rationals; Python's binary floats introduce
only representation-level rounding, no control-flow difference. -/
def chunk_size : ℚ := 1/20

/-- The `while remaining > 0` loop of interrupt_aware_sleep
(`ipython-setup.py` lines 379-392): before each chunk poll `check_interrupt`,
then sleep `min(chunk_size, remaining)` and subtract it from `remaining`.
The well-founded recursion (measure: chunks left, `⌈remaining * 20⌉`) is the
termination argument for the Python loop. -/
def sleepLoop (remaining : ℚ) : List SleepEvent :=
  if 0 < remaining then
    SleepEvent.check :: SleepEvent.sleep (min chunk_size remaining) ::
      sleepLoop (remaining - min chunk_size remaining)
  else []
termination_by (Int.ceil (remaining * 20)).toNat
decreasing_by
  rename_i h
  rcases le_total remaining chunk_size with hle | hge
  · have hz : remaining - min chunk_size remaining = 0 := by
      rw [min_eq_right hle]; ring
    rw [hz, zero_mul, Int.ceil_zero]
    have h1 : (0:ℚ) < remaining * 20 := by linarith
    have h2 : 0 < Int.ceil (remaining * 20) := Int.ceil_pos.mpr h1
    omega
  · have hm : min chunk_size remaining = chunk_size := min_eq_left hge
    rw [hm]
    have he : (remaining - chunk_size) * 20 = remaining * 20 - 1 := by
      unfold chunk_size; ring
    rw [he, Int.ceil_sub_one]
    have h1 : (0:ℚ) < remaining * 20 := by linarith
    have h2 : 0 < Int.ceil (remaining * 20) := Int.ceil_pos.mpr h1
    omega

/-- interrupt_aware_sleep (`ipython-setup.py` lines 370-392): a non-positive
duration returns immediately, otherwise the chunked wait loop runs.  The
returned list is the no-interrupt event trace. -/
def interrupt_aware_sleep (duration : ℚ) : List SleepEvent :=
  if duration ≤ 0 then [] else sleepLoop duration

/-- The sleep increments of a trace, in order. -/
def sleepAmounts (t : List SleepEvent) : List ℚ :=
  t.filterMap fun e =>
    match e with
    | SleepEvent.sleep q => some q
    | SleepEvent.check => Option.none

/-- The trace is a sequence of (poll, sleep) pairs: the interrupt check runs
before every sleep increment. -/
def pairedShape : List SleepEvent → Bool
  | [] => true
  | SleepEvent.check :: SleepEvent.sleep _ :: rest => pairedShape rest
  | _ => false

lemma not_any_key {m : List (String × PyVal)} {k : String}
    (hany : ¬ m.any (fun p => p.1 == k) = true) : ∀ p ∈ m, p.1 ≠ k := by
  intro p hp hk
  exact hany (List.any_eq_true.mpr ⟨p, hp, by simp [hk]⟩)

lemma dictInsert_fresh (m : List (String × PyVal)) (k : String) (v : PyVal)
    (h : ∀ p ∈ m, p.1 ≠ k) : dictInsert m k v = m ++ [(k, v)] := by
  have hany : m.any (fun p => p.1 == k) = false := by
    rw [List.any_eq_false]
    intro p hp
    simpa using h p hp
  simp [dictInsert, hany]

lemma foldl_dictInsert_append :
    ∀ (L acc : List (String × PyVal)),
      (L.map Prod.fst).Nodup →
      (∀ s ∈ L.map Prod.fst, ∀ p ∈ acc, p.1 ≠ s) →
      L.foldl (fun a p => dictInsert a p.1 p.2) acc = acc ++ L := by
  intro L
  induction L with
  | nil =>
    intro acc _ _
    simp
  | cons q L ih =>
    intro acc hnd hfresh
    rw [List.map_cons, List.nodup_cons] at hnd
    obtain ⟨hq, htail⟩ := hnd
    have h1 : dictInsert acc q.1 q.2 = acc ++ [q] := by
      apply dictInsert_fresh
      intro p hp
      exact hfresh q.1 (by simp) p hp
    have hfr2 : ∀ s ∈ L.map Prod.fst, ∀ p ∈ acc ++ [q], p.1 ≠ s := by
      intro s hs p hp
      rcases List.mem_append.mp hp with hp | hp
      · exact hfresh s (by simp [hs]) p hp
      · rw [List.mem_singleton.mp hp]
        intro hqs
        rw [hqs] at hq
        exact hq hs
    have h2 := ih (acc ++ [q]) htail hfr2
    rw [List.foldl_cons, h1, h2]
    simp

lemma dictInsert_mem {m : List (String × PyVal)} {k : String} {v : PyVal}
    {q : String × PyVal} (hq : q ∈ dictInsert m k v) : q ∈ m ∨ q = (k, v) := by
  unfold dictInsert at hq
  by_cases hany : m.any (fun p => p.1 == k) = true
  · rw [if_pos hany] at hq
    rcases List.mem_map.mp hq with ⟨p, hp, hpq⟩
    by_cases hpk : (p.1 == k) = true
    · rw [if_pos hpk] at hpq
      exact Or.inr hpq.symm
    · rw [if_neg hpk] at hpq
      exact Or.inl (hpq ▸ hp)
  · rw [if_neg hany] at hq
    rcases List.mem_append.mp hq with hp | hp
    · exact Or.inl hp
    · exact Or.inr (List.mem_singleton.mp hp)

lemma dictInsert_keys_nodup {m : List (String × PyVal)}
    (h : (m.map Prod.fst).Nodup) (k : String) (v : PyVal) :
    ((dictInsert m k v).map Prod.fst).Nodup := by
  unfold dictInsert
  by_cases hany : m.any (fun p => p.1 == k) = true
  · rw [if_pos hany]
    have hkeys : (m.map fun p => if p.1 == k then (k, v) else p).map Prod.fst
        = m.map Prod.fst := by
      rw [List.map_map]
      apply List.map_congr_left
      intro p _
      by_cases hpk : (p.1 == k) = true
      · simp only [Function.comp_apply, if_pos hpk]
        exact (beq_iff_eq.mp hpk).symm
      · simp only [Function.comp_apply, if_neg hpk]
    rw [hkeys]
    exact h
  · rw [if_neg hany, List.map_append]
    rw [List.nodup_append]
    refine ⟨h, by simp, ?_⟩
    intro a ha hb
    simp only [List.map_cons, List.map_nil, List.mem_singleton] at hb
    rcases List.mem_map.mp ha with ⟨p, hp, hpa⟩
    exact not_any_key hany p hp (by rw [hpa, hb])

lemma serializeDict_mem_aux :
    ∀ (es : List (PyVal × PyVal)) (acc : List (String × PyVal))
      (q : String × PyVal),
      q ∈ es.foldl (fun result p => dictInsert result (pyStr p.1)
        (if jsonOK p.2 then p.2 else PyVal.str (pyStr p.2))) acc →
      q ∈ acc ∨ ∃ p ∈ es, q = serEntry p := by
  intro es
  induction es with
  | nil =>
    intro acc q hq
    exact Or.inl hq
  | cons a es ih =>
    intro acc q hq
    rw [List.foldl_cons] at hq
    rcases ih _ q hq with h | ⟨p, hp, hpe⟩
    · rcases dictInsert_mem h with h2 | h2
      · exact Or.inl h2
      · exact Or.inr ⟨a, by simp, h2⟩
    · exact Or.inr ⟨p, by simp [hp], hpe⟩

lemma serializeDict_val_jsonOK (es : List (PyVal × PyVal)) :
    ∀ q ∈ serializeDict es, jsonOK q.2 = true := by
  intro q hq
  rcases serializeDict_mem_aux es [] q hq with h | ⟨p, _, hpe⟩
  · simp at h
  · rw [hpe]
    unfold serEntry
    by_cases hj : jsonOK p.2 = true
    · simp [hj]
    · simp [hj, jsonOK]

lemma foldl_insert_keys_nodup :
    ∀ (es : List (PyVal × PyVal)) (acc : List (String × PyVal)),
      (acc.map Prod.fst).Nodup →
      ((es.foldl (fun result p => dictInsert result (pyStr p.1)
        (if jsonOK p.2 then p.2 else PyVal.str (pyStr p.2))) acc).map
          Prod.fst).Nodup := by
  intro es
  induction es with
  | nil =>
    intro acc h
    simpa
  | cons a es ih =>
    intro acc h
    rw [List.foldl_cons]
    exact ih _ (dictInsert_keys_nodup h _ _)

lemma serializeDict_keys_nodup (es : List (PyVal × PyVal)) :
    ((serializeDict es).map Prod.fst).Nodup :=
  foldl_insert_keys_nodup es [] (by simp)

lemma serializeDict_eq_map_of_nodup (es : List (PyVal × PyVal))
    (hnd : ((es.map serEntry).map Prod.fst).Nodup) :
    serializeDict es = es.map serEntry := by
  have h1 : serializeDict es
      = (es.map serEntry).foldl (fun a q => dictInsert a q.1 q.2) [] := by
    rw [List.foldl_map]
    rfl
  rw [h1, foldl_dictInsert_append (es.map serEntry) [] hnd
    (by intro s _ p hp; simp at hp)]
  simp

lemma serializeDict_fixed (m : List (String × PyVal))
    (hnd : (m.map Prod.fst).Nodup) (hval : ∀ q ∈ m, jsonOK q.2 = true) :
    serializeDict (m.map fun p => (PyVal.str p.1, p.2)) = m := by
  have hmap : (m.map fun p => (PyVal.str p.1, p.2)).map serEntry = m := by
    rw [List.map_map]
    have hid : ∀ q ∈ m, (serEntry ∘ fun p => (PyVal.str p.1, p.2)) q = q := by
      intro q hq
      simp [serEntry, Function.comp, pyStr, hval q hq]
    rw [List.map_congr_left hid]
    exact List.map_id m
  have hnd2 :
      (((m.map fun p => (PyVal.str p.1, p.2)).map serEntry).map Prod.fst).Nodup := by
    rw [hmap]
    exact hnd
  rw [serializeDict_eq_map_of_nodup _ hnd2, hmap]

lemma jsonOK_strKeyed (m : List (String × PyVal))
    (h : ∀ q ∈ m, jsonOK q.2 = true) : jsonOK (strKeyed m) = true := by
  induction m with
  | nil => rfl
  | cons q m ih =>
    have hq := h q (by simp)
    have hm := ih (fun p hp => h p (by simp [hp]))
    have hstep : jsonOK (strKeyed (q :: m))
        = ((jsonKeyOK (PyVal.str q.1) && jsonOK q.2) && jsonOK (strKeyed m)) := rfl
    rw [hstep, hq, hm]
    rfl

/-- The hook's serializer always yields a value `json.dumps` accepts: the
hook-side half of the serializer totality claim. -/
lemma hook_serializable_jsonOK (v : PyVal) :
    jsonOK (hook_make_serializable v) = true := by
  cases v with
  | none => rfl
  | bool b => rfl
  | int n => rfl
  | str s => rfl
  | dict es => exact jsonOK_strKeyed _ (serializeDict_val_jsonOK es)
  | list xs =>
    by_cases hj : jsonOKList xs = true
    · simp [hook_make_serializable, jsonOK, hj]
    · simp [hook_make_serializable, jsonOK, hj]
  | obj td r => rfl

/-- C1: the claim says both `_make_serializable` methods never raise and
always return a value a standard JSON encoder can re-encode.  The publisher
edition violates this: for a value exposing `to_dict` it returns the
`to_dict()` result without the JSON probe the method's own docstring
("Convert objects to JSON-serializable format") promises, so an object whose
`to_dict()` yields a mapping with an unencodable value comes back
non-re-encodable (and a raising `to_dict()` would propagate).  This theorem
evaluates the code at such a failing input.  The hook edition, which has no
`to_dict` branch, does satisfy the claim (see `hook_serializable_jsonOK`). -/
theorem publisher_to_dict_breaks_serializability :
    jsonOK (publisher_make_serializable
      (PyVal.obj
        (some (PyVal.dict [(PyVal.str "x", PyVal.obj Option.none "<object object>")]))
        "df")) = false := rfl

/-- C2 counterexample: with no clear sink registered, `clear_output(True)`
emits the line `__CLEAR_OUTPUT__:True`, which is not the `[CLEAR_OUTPUT:True]`
sentinel the claim names. -/
theorem clear_output_sentinel_mismatch :
    (clear_output false true).stdoutLines = ["__CLEAR_OUTPUT__:True"] ∧
    "__CLEAR_OUTPUT__:True" ≠ "[CLEAR_OUTPUT:True]" :=
  ⟨rfl, by decide⟩

/-- C2 (amended): `clear_output(wait=True)` with no clear sink registered
emits exactly one stdout line, the code's sentinel `__CLEAR_OUTPUT__:True`;
with a clear sink registered it invokes the sink exactly once with `True` and
emits nothing. -/
theorem clear_output_amended_behavior :
    (clear_output false true).stdoutLines = ["__CLEAR_OUTPUT__:True"] ∧
    (clear_output false true).sinkCalls = [] ∧
    (clear_output true true).sinkCalls = [true] ∧
    (clear_output true true).stdoutLines = [] :=
  ⟨rfl, rfl, rfl, rfl⟩

/-- C3: for a non-`None` result with a result sink registered, one hook call
increments the execution counter by exactly 1 and invokes the sink exactly
once, passing the new counter value as first argument.  The hypothesis states
the contract of the external rich formatter (IPython): it either raises or
returns a format dict that includes the guaranteed `text/plain` fallback (in
particular it is non-empty, so the `if self.js_callback and format_dict:`
guard passes). -/
theorem hook_present_value_increments_and_notifies (count : Nat) (v : PyVal)
    (fmt : FormatOutcome)
    (hfmt : match fmt with
      | FormatOutcome.ok fd _ => PyVal.str "text/plain" ∈ fd.map Prod.fst
      | FormatOutcome.raises _ => True) :
    (hookCall true count (some v) fmt).execution_count = count + 1 ∧
    (hookCall true count (some v) fmt).sinkCalls.length = 1 ∧
    ∀ c ∈ (hookCall true count (some v) fmt).sinkCalls, c.1 = count + 1 := by
  cases fmt with
  | ok fd md =>
    cases fd with
    | nil => simp at hfmt
    | cons a l => simp [hookCall]
  | raises msg => simp [hookCall]

/-- C3 witness: a concrete `2` result formatted to a plain-text dict under an
execution counter of 0. -/
theorem hook_present_value_increments_and_notifies_witness :
    (PyVal.str "text/plain" ∈
      ([(PyVal.str "text/plain", PyVal.str "2")].map Prod.fst)) ∧
    ((hookCall true 0 (some (PyVal.int 2))
        (FormatOutcome.ok [(PyVal.str "text/plain", PyVal.str "2")]
          Option.none)).execution_count = 0 + 1 ∧
     (hookCall true 0 (some (PyVal.int 2))
        (FormatOutcome.ok [(PyVal.str "text/plain", PyVal.str "2")]
          Option.none)).sinkCalls.length = 1 ∧
     ∀ c ∈ (hookCall true 0 (some (PyVal.int 2))
        (FormatOutcome.ok [(PyVal.str "text/plain", PyVal.str "2")]
          Option.none)).sinkCalls, c.1 = 0 + 1) :=
  ⟨by simp,
   hook_present_value_increments_and_notifies 0 (PyVal.int 2)
     (FormatOutcome.ok [(PyVal.str "text/plain", PyVal.str "2")] Option.none)
     (by simp)⟩

/-- C4: when the rich-formatting step raises and a result sink is registered,
the hook swallows the failure (the call returns the original value normally,
nothing propagates), emits the `[DISPLAY_HOOK_ERROR]` stderr diagnostic, and
still invokes the sink exactly once, with a payload holding only the
`text/plain` key mapped to the value's string representation. -/
theorem hook_formatting_failure_fallback (count : Nat) (v : PyVal) (msg : String) :
    hookCall true count (some v) (FormatOutcome.raises msg) =
      { execution_count := count + 1,
        sinkCalls := [(count + 1,
          PyVal.dict [(PyVal.str "text/plain", PyVal.str (pyStr v))],
          PyVal.dict [])],
        stderrLines :=
          ["[DISPLAY_HOOK_ERROR] ErrorWarning: Error formatting result: " ++ msg],
        returned := some v } := rfl

/-- C5: the claim says `format_exception` never raises for any triple,
including a `None` type.  The fallback path contradicts it: when the standard
rendering raises (as it does, for instance, for the real triple
`(None, 5, None)`, where `TracebackException` chokes on `5`), the fallback
f-string evaluates `exc_type.__name__`, and with `exc_type = None` that raises
`AttributeError`, which nothing catches.  The first conjunct evaluates the
code at this failing input (an `Option.none` result is a raise); the second
shows the ordinary all-`None` triple is handled fine when the rendering
succeeds. -/
theorem format_exception_raises_on_missing_type :
    format_exception (TbOutcome.raises "AttributeError") ExcTypeArg.noneType "5" =
      Option.none ∧
    format_exception (TbOutcome.formatted "NoneType: None\n") ExcTypeArg.noneType
      "None" = some "NoneType: None\n" :=
  ⟨rfl, rfl⟩

/-- C9: on every value without a `to_dict` attribute the two serializers
compute identical results; on a value exposing `to_dict` the publisher hands
back the `to_dict()` output directly (no JSON probe), while the hook probes
the object like any other value: the probe fails and the object's string
representation is returned. -/
theorem serializers_agree_except_to_dict :
    (∀ v : PyVal, toDictAttr v = Option.none →
      publisher_make_serializable v = hook_make_serializable v) ∧
    (∀ (d : PyVal) (r : String),
      publisher_make_serializable (PyVal.obj (some d) r) = d ∧
      hook_make_serializable (PyVal.obj (some d) r) = PyVal.str r) := by
  constructor
  · intro v hv
    cases v with
    | none => rfl
    | bool b => rfl
    | int n => rfl
    | str s => rfl
    | list xs => rfl
    | dict es => rfl
    | obj td r =>
      cases td with
      | none => rfl
      | some d => simp [toDictAttr] at hv
  · intro d r
    exact ⟨rfl, rfl⟩

/-- C9 witness: the two serializers agree at the plain value `5`, and the
publisher returns the `to_dict()` payload of a concrete custom object. -/
theorem serializers_agree_except_to_dict_witness :
    (toDictAttr (PyVal.int 5) = Option.none ∧
     publisher_make_serializable (PyVal.int 5) =
       hook_make_serializable (PyVal.int 5)) ∧
    publisher_make_serializable (PyVal.obj (some (PyVal.int 1)) "X") = PyVal.int 1 :=
  ⟨⟨rfl, serializers_agree_except_to_dict.1 (PyVal.int 5) rfl⟩,
   (serializers_agree_except_to_dict.2 (PyVal.int 1) "X").1⟩

/-- C6 counterexample: the claim says every JSON-safe value of the input
mapping is kept unchanged under its string-coerced key.  Python's
`True` and `"True"` are distinct dict keys that both coerce to the string
`"True"`, so on `{True: "a", "True": "b"}` the later entry overwrites the
earlier: the result holds only `"b"`, and the JSON-safe value `"a"` of key
`True` is gone. -/
theorem serialize_mapping_key_collision_cex :
    publisher_make_serializable
        (PyVal.dict [(PyVal.bool true, PyVal.str "a"),
          (PyVal.str "True", PyVal.str "b")]) =
      PyVal.dict [(PyVal.str "True", PyVal.str "b")] ∧
    PyVal.str "b" ≠ PyVal.str "a" :=
  ⟨rfl, by simp⟩

/-- C6 (amended): for every mapping whose string-coerced keys are pairwise
distinct, the publisher's serializer returns exactly the entry-by-entry
image: each key string-coerced, each JSON-safe value unchanged, and exactly
the non-encodable values replaced by their string representations.  When two
keys coerce to the same string the later entry overwrites the earlier (see
the counterexample). -/
theorem serialize_mapping_distinct_keys (es : List (PyVal × PyVal))
    (hnd : (es.map fun p => pyStr p.1).Nodup) :
    publisher_make_serializable (PyVal.dict es) =
      PyVal.dict (es.map fun p =>
        (PyVal.str (pyStr p.1),
         if jsonOK p.2 then p.2 else PyVal.str (pyStr p.2))) := by
  have hnd2 : ((es.map serEntry).map Prod.fst).Nodup := by
    rw [List.map_map]
    have hcomp : es.map (Prod.fst ∘ serEntry) = es.map fun p => pyStr p.1 := by
      apply List.map_congr_left
      intro p _
      rfl
    rw [hcomp]
    exact hnd
  have h1 : publisher_make_serializable (PyVal.dict es)
      = strKeyed (serializeDict es) := rfl
  rw [h1, serializeDict_eq_map_of_nodup es hnd2]
  unfold strKeyed
  rw [List.map_map]
  apply congrArg
  apply List.map_congr_left
  intro p _
  rfl

/-- C6 witness: a two-entry mapping with distinct coerced keys, one JSON-safe
value kept and one unencodable object replaced. -/
theorem serialize_mapping_distinct_keys_witness :
    (([(PyVal.str "k1", PyVal.int 7),
       (PyVal.str "k2", PyVal.obj Option.none "O")].map
        fun p => pyStr p.1).Nodup) ∧
    publisher_make_serializable
        (PyVal.dict [(PyVal.str "k1", PyVal.int 7),
          (PyVal.str "k2", PyVal.obj Option.none "O")]) =
      PyVal.dict ([(PyVal.str "k1", PyVal.int 7),
          (PyVal.str "k2", PyVal.obj Option.none "O")].map
        fun p => (PyVal.str (pyStr p.1),
          if jsonOK p.2 then p.2 else PyVal.str (pyStr p.2))) :=
  ⟨by simp [pyStr], serialize_mapping_distinct_keys _ (by simp [pyStr])⟩

/-- C10: the hook's serializer is idempotent: its output is a fixed point.
Scalars and JSON-safe values pass through twice unchanged; replacements are
strings, which are JSON-safe; a serialized dict has string keys (on which
`str` is the identity) and only probe-passing values, so the second pass
rebuilds it entry by entry. -/
theorem hook_serializer_idempotent (v : PyVal) :
    hook_make_serializable (hook_make_serializable v) = hook_make_serializable v := by
  cases v with
  | none => rfl
  | bool b => rfl
  | int n => rfl
  | str s => rfl
  | dict es =>
    have h1 : hook_make_serializable (PyVal.dict es)
        = strKeyed (serializeDict es) := rfl
    rw [h1]
    have h2 : hook_make_serializable (strKeyed (serializeDict es))
        = strKeyed (serializeDict
            ((serializeDict es).map fun p => (PyVal.str p.1, p.2))) := rfl
    rw [h2, serializeDict_fixed _ (serializeDict_keys_nodup es)
      (serializeDict_val_jsonOK es)]
  | list xs =>
    by_cases hj : jsonOKList xs = true
    · simp [hook_make_serializable, jsonOK, hj]
    · simp [hook_make_serializable, jsonOK, hj, pyStr]
  | obj td r => rfl

lemma measure_pos (r : ℚ) (h : 0 < r) : 0 < (Int.ceil (r * 20)).toNat := by
  have h1 : (0:ℚ) < r * 20 := by linarith
  have h2 : 0 < Int.ceil (r * 20) := Int.ceil_pos.mpr h1
  omega

lemma measure_drop (r : ℚ) (h : 0 < r) :
    (Int.ceil ((r - min chunk_size r) * 20)).toNat
      < (Int.ceil (r * 20)).toNat := by
  rcases le_total r chunk_size with hle | hge
  · have hz : r - min chunk_size r = 0 := by
      rw [min_eq_right hle]; ring
    rw [hz, zero_mul, Int.ceil_zero]
    have := measure_pos r h
    omega
  · have hm : min chunk_size r = chunk_size := min_eq_left hge
    rw [hm]
    have he : (r - chunk_size) * 20 = r * 20 - 1 := by
      unfold chunk_size; ring
    rw [he, Int.ceil_sub_one]
    have h1 : (0:ℚ) < r * 20 := by linarith
    have h2 : 0 < Int.ceil (r * 20) := Int.ceil_pos.mpr h1
    omega

lemma sleepLoop_nonpos (r : ℚ) (h : r ≤ 0) : sleepLoop r = [] := by
  rw [sleepLoop.eq_def, if_neg (by linarith)]

lemma sleepLoop_spec :
    ∀ (n : Nat) (r : ℚ), (Int.ceil (r * 20)).toNat ≤ n →
      pairedShape (sleepLoop r) = true ∧
      (∀ q ∈ sleepAmounts (sleepLoop r), q ≤ chunk_size) ∧
      (sleepAmounts (sleepLoop r)).sum = max r 0 := by
  intro n
  induction n with
  | zero =>
    intro r hr
    have hr0 : r ≤ 0 := by
      by_contra hpos
      push_neg at hpos
      have := measure_pos r hpos
      omega
    rw [sleepLoop_nonpos r hr0]
    refine ⟨rfl, by simp [sleepAmounts], ?_⟩
    have : sleepAmounts [] = [] := rfl
    rw [this, List.sum_nil]
    exact (max_eq_right hr0).symm
  | succ n ih =>
    intro r hr
    by_cases hpos : 0 < r
    · have hdrop := measure_drop r hpos
      have hrec := ih (r - min chunk_size r) (by omega)
      obtain ⟨hshape, hbound, hsum⟩ := hrec
      rw [sleepLoop.eq_def, if_pos hpos]
      have hamounts : sleepAmounts (SleepEvent.check ::
            SleepEvent.sleep (min chunk_size r) ::
            sleepLoop (r - min chunk_size r))
          = min chunk_size r :: sleepAmounts (sleepLoop (r - min chunk_size r)) := rfl
      refine ⟨hshape, ?_, ?_⟩
      · intro q hq
        rw [hamounts] at hq
        rcases List.mem_cons.mp hq with rfl | hq
        · exact min_le_left _ _
        · exact hbound q hq
      · rw [hamounts, List.sum_cons, hsum]
        rcases le_total r chunk_size with hle | hge
        · rw [min_eq_right hle]
          have hz : r - r = 0 := by ring
          rw [hz]
          simp
          exact hpos.le
        · rw [min_eq_left hge]
          have h0 : (0:ℚ) ≤ r - chunk_size := by linarith
          rw [max_eq_left h0, max_eq_left hpos.le]
          ring
    · push_neg at hpos
      rw [sleepLoop_nonpos r hpos]
      refine ⟨rfl, by simp [sleepAmounts], ?_⟩
      have hnil : sleepAmounts ([] : List SleepEvent) = [] := rfl
      rw [hnil, List.sum_nil]
      exact (max_eq_right hpos).symm

/-- C7: for every positive requested duration, the wrapped sleep terminates
(the trace below is a finite list produced by a total function; the
recursion's measure is the Python loop's termination argument), its trace is
a sequence of (interrupt poll, sleep increment) pairs with the poll before
every increment, every increment is at most `chunk_size` = 50 ms, and absent
an interrupt the increments sum to exactly the requested duration. -/
theorem interrupt_aware_sleep_spec (d : ℚ) (hd : 0 < d) :
    pairedShape (interrupt_aware_sleep d) = true ∧
    (∀ q ∈ sleepAmounts (interrupt_aware_sleep d), q ≤ 1/20) ∧
    (sleepAmounts (interrupt_aware_sleep d)).sum = d := by
  have hiter : interrupt_aware_sleep d = sleepLoop d := by
    unfold interrupt_aware_sleep
    rw [if_neg (by linarith)]
  have h := sleepLoop_spec (Int.ceil (d * 20)).toNat d le_rfl
  rw [hiter]
  refine ⟨h.1, ?_, ?_⟩
  · intro q hq
    exact h.2.1 q hq
  · rw [h.2.2]
    exact max_eq_left hd.le

/-- C7 witness: a 125 ms sleep, split as 50 ms + 50 ms + 25 ms. -/
theorem interrupt_aware_sleep_spec_witness :
    (0:ℚ) < 1/8 ∧
    (pairedShape (interrupt_aware_sleep (1/8)) = true ∧
     (∀ q ∈ sleepAmounts (interrupt_aware_sleep (1/8)), q ≤ 1/20) ∧
     (sleepAmounts (interrupt_aware_sleep (1/8))).sum = 1/8) :=
  ⟨by norm_num, interrupt_aware_sleep_spec (1/8) (by norm_num)⟩

/-- C8: whenever the SVG rendering step or the publishing step raises, the
show wrapper catches the exception, prints the `Error capturing plot:`
diagnostic, and returns normally: the call still ends by delegating to the
original `plt.show`, and nothing propagates to the enclosing evaluation (the
wrapper's outcome is an ordinary event list, not an error). -/
theorem capture_show_swallows_render_errors
    (render : Except String String) (publish : String → Except String Unit)
    (block : Option Bool) (e : String)
    (herr : render = Except.error e ∨
      ∃ svg, render = Except.ok svg ∧ publish svg = Except.error e) :
    capture_matplotlib_show true render publish block =
      [CaptureEvent.stdout ("Error capturing plot: " ++ e),
       CaptureEvent.callOriginalShow block] := by
  rcases herr with h | ⟨svg, hr, hp⟩
  · rw [h]
    rfl
  · rw [hr]
    simp [capture_matplotlib_show, captureBody, hp]

/-- C8 witness: a rendering failure with the message `boom`. -/
theorem capture_show_swallows_render_errors_witness :
    ((Except.error "boom" : Except String String) = Except.error "boom" ∨
      ∃ svg, (Except.error "boom" : Except String String) = Except.ok svg ∧
        (fun (_ : String) => (Except.ok () : Except String Unit)) svg
          = Except.error "boom") ∧
    capture_matplotlib_show true (Except.error "boom")
        (fun _ => Except.ok ()) Option.none =
      [CaptureEvent.stdout ("Error capturing plot: " ++ "boom"),
       CaptureEvent.callOriginalShow Option.none] :=
  ⟨Or.inl rfl,
   capture_show_swallows_render_errors (Except.error "boom")
     (fun _ => Except.ok ()) Option.none "boom" (Or.inl rfl)⟩

end IPythonSetup
